import Mathlib

/-!
Verification of the electricity-invoice-calculator billing core.

Shallow embedding conventions, used throughout:
* Instants (`time.Time`) are represented at hour granularity as `Int`
  (hours since an arbitrary epoch, UTC).  All period boundaries the
  billing core manipulates lie on whole hours, and differences of
  instants are taken with `time.Duration.Hours` truncated to `int`.
* The Europe/Copenhagen wall-clock conversion (`time.LoadLocation` +
  `In`) cannot be embedded (it is an external timezone database); it is
  abstracted as a parameter `tz : Int → Int` mapping a UTC hour instant
  to the corresponding local hour instant.  The local hour of day is
  then `(tz t) % 24` and the formatted local-hour string
  `"2006-01-02T15:04:05"` of an hour-truncated instant is represented by
  the local hour instant itself (the format is injective on
  hour-truncated times, so string equality coincides with equality of
  these integers).
* Go `float64` values are embedded as `ℚ` (exact arithmetic); `float`
  literals such as `0.0833` become the rational the source text denotes.
* Go maps (`map[string]float64`) are embedded as association lists
  `List (String × ℚ)` with overwrite-on-assign semantics (`mapInsert`).
* Fallible Go functions returning `(T, error)` become `Except String T`.
* For the calendar-level period generator the relevant representation is
  the Europe/Copenhagen civil datetime itself, embedded as `CTime`
  (year, month, day, time-of-day remainder) with lexicographic order;
  see the period-generation section below.
-/

namespace ElInvoice

/-- BillingFrequency is a string type in the source (`lib/billing`). -/
abbrev BillingFrequency := String

/-- Constant `Monthly` of `lib/billing`. -/
def Monthly : BillingFrequency := "monthly"

/-- Constant `Quarterly` of `lib/billing`. -/
def Quarterly : BillingFrequency := "quarterly"

/-- CalculationType is a string type in the source (`lib/billing`). -/
abbrev CalculationType := String

/-- Constant `Historical` of `lib/billing`. -/
def Historical : CalculationType := "historical"

/-- Constant `Aconto` of `lib/billing`. -/
def Aconto : CalculationType := "aconto"

/-- PeriodType is a string type in the source (`lib/billing`). -/
abbrev PeriodType := String

/-- Constant `PeriodHistorical` of `lib/billing`. -/
def PeriodHistorical : PeriodType := "historical"

/-- Constant `PeriodAconto` of `lib/billing`. -/
def PeriodAconto : PeriodType := "aconto"

/-- Constant `PeriodHybrid` of `lib/billing`. -/
def PeriodHybrid : PeriodType := "hybrid"

/-- Period struct of `lib/billing` (`Start`, `End`, `Label`, `Frequency`,
`CalculationType`).  Generic over the instant representation: `Int` hour
instants for classification and hybrid estimation, `CTime` civil
datetimes for the calendar-level period generator. -/
structure Period (τ : Type) where
  Start : τ
  End : τ
  Label : String
  Frequency : BillingFrequency
  CalculationType : CalculationType
deriving Repr, DecidableEq

/-- DeterminePeriodType of `lib/billing` (frequency.go).  The source
reads `time.Now().In(copenhagen)` ambiently; here the current instant is
the explicit parameter `now` (instants compared as absolute instants, so
the `Int`-hour embedding applies directly; `After`/`Before`/`Equal`
become `>`/`<`/`=`). -/
def DeterminePeriodType (period : Period Int) (calculationType : CalculationType)
    (now : Int) : PeriodType :=
  if calculationType = Historical then
    PeriodHistorical
  else if period.Start > now then
    PeriodAconto
  else if period.End < now ∨ period.End = now then
    PeriodHistorical
  else if period.Start < now ∧ period.End > now then
    PeriodHybrid
  else
    PeriodAconto

/-- Modelled from the spec (the claim's words): classifier where every
remaining case with `start ≤ now < end` yields `Hybrid`. -/
def classifySpec (period : Period Int) (calculationType : CalculationType)
    (now : Int) : PeriodType :=
  if calculationType = Historical then
    PeriodHistorical
  else if period.Start > now then
    PeriodAconto
  else if period.End ≤ now then
    PeriodHistorical
  else
    PeriodHybrid

/-- Modelled from the spec as amended by the counterexample below:
identical to `classifySpec` except that the boundary case
`start = now < end` yields `Aconto`; only `start < now < end` yields
`Hybrid`. -/
def classifyAmended (period : Period Int) (calculationType : CalculationType)
    (now : Int) : PeriodType :=
  if calculationType = Historical then
    PeriodHistorical
  else if period.Start > now then
    PeriodAconto
  else if period.End ≤ now then
    PeriodHistorical
  else if period.Start < now then
    PeriodHybrid
  else
    PeriodAconto

/-- C1 counterexample: for the period `[0, 1)` with calculation type
`Aconto` evaluated at `now = 0` (so `start = now < end`, a "remaining
case" in the claim's words, which the claim resolves to `Hybrid`),
`DeterminePeriodType` returns `Aconto`, not `Hybrid`: the fourth guard
`period.Start.Before(now)` is strict, so the exact boundary
`start = now` falls through to the final `return PeriodAconto`. -/
theorem determinePeriodType_start_eq_now_ne_hybrid :
    DeterminePeriodType ⟨0, 1, "", Monthly, Aconto⟩ Aconto 0 = PeriodAconto ∧
      PeriodAconto ≠ PeriodHybrid ∧
      classifySpec ⟨0, 1, "", Monthly, Aconto⟩ Aconto 0 = PeriodHybrid := by
  refine ⟨by decide, by decide, by decide⟩

/-- C1 (amended): `DeterminePeriodType` returns `Historical` when the
calculation type is `Historical`; otherwise `Aconto` when
`start > now`; otherwise `Historical` when `end ≤ now` (including the
exact boundary `end = now`); otherwise `Hybrid` when `start < now < end`;
and `Aconto` in the one remaining boundary case `start = now < end`. -/
theorem determinePeriodType_eq_classifyAmended
    (period : Period Int) (calculationType : CalculationType) (now : Int) :
    DeterminePeriodType period calculationType now =
      classifyAmended period calculationType now := by
  unfold DeterminePeriodType classifyAmended
  rcases period with ⟨s, e, l, f, c⟩
  split_ifs <;> first
    | rfl
    | (exfalso; omega)

/-- Price struct of `lib/eloverblik/charges.go`: a single price entry
with its 1-indexed local-hour position (a string in the API payload). -/
structure Price where
  Position : String
  Price : ℚ
deriving Repr, DecidableEq

/-- Tariff struct of `lib/eloverblik/charges.go`. -/
structure Tariff where
  Prices : List Price
  Name : String
  Description : String
  Owner : String
  ValidFromDate : String
  ValidToDate : Option String
  PeriodType : String
deriving Repr, DecidableEq

/-- Subscription struct of `lib/eloverblik/charges.go`. -/
structure Subscription where
  Price : ℚ
  Quantity : Int
  Name : String
  Description : String
  Owner : String
  ValidFromDate : String
  ValidToDate : Option String
  PeriodType : String
deriving Repr, DecidableEq

/-- ChargesResult struct of `lib/eloverblik/charges.go` (the untyped
`Fees []interface{}` field, unused by the billing core, is omitted). -/
structure ChargesResult where
  MeteringPointId : String
  Subscriptions : List Subscription
  Tariffs : List Tariff
deriving Repr, DecidableEq

/-- HourlyConsumption struct of `lib/eloverblik/consumption.go`; the
instant is an `Int` hour (see the header). -/
structure HourlyConsumption where
  DateTime : Int
  Consumption : ℚ
  Quality : String
deriving Repr, DecidableEq

/-- SpotPriceRecord struct of `lib/energinet`: `HourUTC` and `HourDK`
are formatted timestamp strings in the source, represented here by the
hour instant each string denotes (the format is injective on
hour-truncated instants). -/
structure SpotPriceRecord where
  HourUTC : Int
  HourDK : Int
  PriceArea : String
  SpotPriceDKK : ℚ
  SpotPriceEUR : ℚ
deriving Repr, DecidableEq

/-- ConvertToKWh of `lib/energinet`: MWh price to kWh price. -/
def ConvertToKWh (pricePerMWh : ℚ) : ℚ :=
  pricePerMWh / 1000

/-- HourlyTariffCost struct of `lib/billing` (tariff calculation file);
the Go `map[string]float64` is an association list with
overwrite-on-assign semantics. -/
structure HourlyTariffCost where
  DateTime : Int
  Consumption : ℚ
  TariffCosts : List (String × ℚ)
  SupplierCost : ℚ
  SpotPrice : ℚ
  SpotCost : ℚ
  TotalCost : ℚ
deriving Repr, DecidableEq

/-- Assignment `m[k] = v` on a Go map embedded as an association list:
overwrite the entry whose key is `k` if one exists, else append. -/
def mapInsert (m : List (String × ℚ)) (k : String) (v : ℚ) : List (String × ℚ) :=
  if m.any (fun p => p.1 == k) then
    m.map (fun p => if p.1 == k then (k, v) else p)
  else
    m ++ [(k, v)]

/-- Sum of the values of a Go map embedded as an association list. -/
def mapSum (m : List (String × ℚ)) : ℚ :=
  (m.map Prod.snd).sum

/-- Read `m[k]` (zero value when absent) on the embedded Go map. -/
def mapGet (m : List (String × ℚ)) (k : String) : ℚ :=
  ((m.find? (fun p => p.1 == k)).map Prod.snd).getD 0

/-- GetSpotPriceForHour of `lib/billing` (tariff calculation file): the
loop over the records returns the first whose `HourDK` string equals the
record instant formatted in Europe/Copenhagen local time (`tz`), as
`ConvertToKWh` of its DKK/MWh price; the Go `(0, error)` failure is the
`Except.error` case (the caller substitutes 0). -/
def GetSpotPriceForHour (tz : Int → Int) (hourDateTime : Int)
    (spotPrices : List SpotPriceRecord) : Except String ℚ :=
  let hourDK := tz hourDateTime
  match spotPrices.find? (fun record => record.HourDK == hourDK) with
  | some record => Except.ok (ConvertToKWh record.SpotPriceDKK)
  | none => Except.error "no spot price found for hour"

/-- Position-scan loop of CalculateHourlyTariffs: first price whose
`Position` string equals the decimal rendering of `hourPosition`, else
the zero value the Go `var applicablePrice float64` keeps. -/
def findPositionPrice (prices : List Price) (hourPosition : Int) : ℚ :=
  match prices.find? (fun price => price.Position == toString hourPosition) with
  | some price => price.Price
  | none => 0

/-- Price-selection branch of CalculateHourlyTariffs, for one tariff at
one local-hour position: daily-fixed (`P1D`, exactly 1 price) uses the
single price for every hour; hourly-variable (`PT1H`, exactly 24 prices)
scans for the matching position; any other shape uses the single price
if exactly one exists, else scans for a position match.  The `[]` arms
are unreachable under the `length = 1` guards (Go indexes `Prices[0]`). -/
def applicablePrice (tariff : Tariff) (hourPosition : Int) : ℚ :=
  if tariff.PeriodType == "P1D" && tariff.Prices.length == 1 then
    match tariff.Prices with
    | price :: _ => price.Price
    | [] => 0
  else if tariff.PeriodType == "PT1H" && tariff.Prices.length == 24 then
    findPositionPrice tariff.Prices hourPosition
  else if tariff.Prices.length == 1 then
    match tariff.Prices with
    | price :: _ => price.Price
    | [] => 0
  else
    findPositionPrice tariff.Prices hourPosition

/-- Body of the tariff loop of CalculateHourlyTariffs: accumulates the
name-keyed cost map (overwrite on name collision) and the running total
of all tariff costs. -/
def tariffStep (consumption : ℚ) (hourPosition : Int)
    (acc : List (String × ℚ) × ℚ) (tariff : Tariff) : List (String × ℚ) × ℚ :=
  let cost := consumption * applicablePrice tariff hourPosition
  (mapInsert acc.1 tariff.Name cost, acc.2 + cost)

/-- CalculateHourlyTariffs of `lib/billing`: per-hour cost of one
consumption record against the tariff schedule, the supplier rate and
the spot-price series.  `hourPosition = localHour + 1` with the local
hour of day `(tz DateTime) % 24`; a failed spot-price lookup is replaced
by price 0 (the Go code prints a warning and continues). -/
def CalculateHourlyTariffs (tz : Int → Int) (hourlyConsumption : HourlyConsumption)
    (chargesData : ChargesResult) (supplierPricePerKWh : ℚ)
    (spotPrices : List SpotPriceRecord) : HourlyTariffCost :=
  let hourPosition : Int := (tz hourlyConsumption.DateTime) % 24 + 1
  let spotPrice : ℚ :=
    match GetSpotPriceForHour tz hourlyConsumption.DateTime spotPrices with
    | Except.ok p => p
    | Except.error _ => 0
  let spotCost := hourlyConsumption.Consumption * spotPrice
  let folded := List.foldl (tariffStep hourlyConsumption.Consumption hourPosition)
    ([], 0) chargesData.Tariffs
  let supplierCost := hourlyConsumption.Consumption * supplierPricePerKWh
  { DateTime := hourlyConsumption.DateTime
    Consumption := hourlyConsumption.Consumption
    TariffCosts := folded.1
    SupplierCost := supplierCost
    SpotPrice := spotPrice
    SpotCost := spotCost
    TotalCost := folded.2 + supplierCost + spotCost }

/-- CalculateAllHourlyTariffs of `lib/billing`: the Go loop appends one
per-hour result per consumption record, i.e. maps CalculateHourlyTariffs
over the series in order. -/
def CalculateAllHourlyTariffs (tz : Int → Int)
    (consumptionData : List HourlyConsumption) (chargesData : ChargesResult)
    (supplierPricePerKWh : ℚ) (spotPrices : List SpotPriceRecord) :
    List HourlyTariffCost :=
  consumptionData.map
    (fun hourlyConsumption =>
      CalculateHourlyTariffs tz hourlyConsumption chargesData supplierPricePerKWh spotPrices)

/-- C10: CalculateAllHourlyTariffs returns exactly one HourlyTariffCost
per input record, in the same order, and the i-th result's DateTime and
Consumption equal the i-th input record's DateTime and Consumption
unchanged. -/
theorem calculateAllHourlyTariffs_frame (tz : Int → Int)
    (consumptionData : List HourlyConsumption) (chargesData : ChargesResult)
    (supplierPricePerKWh : ℚ) (spotPrices : List SpotPriceRecord) :
    (CalculateAllHourlyTariffs tz consumptionData chargesData supplierPricePerKWh
        spotPrices).length = consumptionData.length ∧
    ∀ i : Nat,
      ((CalculateAllHourlyTariffs tz consumptionData chargesData supplierPricePerKWh
          spotPrices).get? i).map (fun res => (res.DateTime, res.Consumption))
        = (consumptionData.get? i).map (fun rec => (rec.DateTime, rec.Consumption)) := by
  constructor
  · simp [CalculateAllHourlyTariffs]
  · intro i
    simp only [CalculateAllHourlyTariffs, List.get?_map]
    cases consumptionData.get? i with
    | none => rfl
    | some rec => rfl

/-- C6: the spot-price lookup formats the record's instant as a
Europe/Copenhagen local-hour value (`tz`) and, when some record's
`HourDK` matches (the loop takes the first such record), yields that
record's DKK/MWh price divided by 1000; when no record matches, the
lookup errors, and the per-hour computation recovers locally with spot
price 0 (hence spot cost 0) and still returns its result. -/
theorem getSpotPriceForHour_lookup (tz : Int → Int) (rec : HourlyConsumption)
    (spotPrices : List SpotPriceRecord) (chargesData : ChargesResult) (sup : ℚ) :
    (∀ record,
        spotPrices.find? (fun r => r.HourDK == tz rec.DateTime) = some record →
        GetSpotPriceForHour tz rec.DateTime spotPrices
            = Except.ok (record.SpotPriceDKK / 1000) ∧
        (CalculateHourlyTariffs tz rec chargesData sup spotPrices).SpotPrice
            = record.SpotPriceDKK / 1000) ∧
    (spotPrices.find? (fun r => r.HourDK == tz rec.DateTime) = none →
        (GetSpotPriceForHour tz rec.DateTime spotPrices).isOk = false ∧
        (CalculateHourlyTariffs tz rec chargesData sup spotPrices).SpotPrice = 0 ∧
        (CalculateHourlyTariffs tz rec chargesData sup spotPrices).SpotCost = 0) := by
  constructor
  · intro record hfind
    constructor
    · simp [GetSpotPriceForHour, hfind, ConvertToKWh]
    · simp [CalculateHourlyTariffs, GetSpotPriceForHour, hfind, ConvertToKWh]
  · intro hfind
    refine ⟨?_, ?_, ?_⟩
    · simp [GetSpotPriceForHour, hfind, Except.isOk, Except.toBool]
    · simp [CalculateHourlyTariffs, GetSpotPriceForHour, hfind]
    · simp [CalculateHourlyTariffs, GetSpotPriceForHour, hfind]

/-- C2: the price-selection of the per-hour tariff engine, at local-hour
position `p = localHour + 1`: a `P1D` tariff with exactly 1 price
applies that single price at every position; a `PT1H` tariff with
exactly 24 prices applies the price whose position matches `p`; any
other shape applies the single price if exactly one exists, else the
result of the position scan.  First conjunct ties the selection to the
engine (the hour's map entry is `consumption × applicablePrice` at
`p = (tz DateTime) % 24 + 1`); the last two conjuncts are the concrete
scenarios: a 1.5 DKK/kWh daily-fixed tariff with 2 kWh gives 3.0 DKK,
and an hourly-variable tariff with 0.3 DKK/kWh at position 15 with 1 kWh
consumed at local hour 14 gives 0.3 DKK. -/
theorem calculateHourlyTariffs_priceSelection :
    (∀ (tz : Int → Int) (rec : HourlyConsumption) (tariff : Tariff) (sup : ℚ)
        (spotPrices : List SpotPriceRecord) (mid : String) (subs : List Subscription),
        (CalculateHourlyTariffs tz rec ⟨mid, subs, [tariff]⟩ sup spotPrices).TariffCosts
          = [(tariff.Name,
              rec.Consumption * applicablePrice tariff ((tz rec.DateTime) % 24 + 1))]) ∧
    (∀ (tariff : Tariff) (p : Int) (pr : Price),
        tariff.PeriodType = "P1D" → tariff.Prices = [pr] →
        applicablePrice tariff p = pr.Price) ∧
    (∀ (tariff : Tariff) (p : Int) (pr : Price),
        tariff.PeriodType = "PT1H" → tariff.Prices.length = 24 →
        tariff.Prices.find? (fun price => price.Position == toString p) = some pr →
        applicablePrice tariff p = pr.Price) ∧
    (∀ (tariff : Tariff) (p : Int) (pr : Price),
        ¬(tariff.PeriodType = "P1D" ∧ tariff.Prices.length = 1) →
        ¬(tariff.PeriodType = "PT1H" ∧ tariff.Prices.length = 24) →
        tariff.Prices = [pr] →
        applicablePrice tariff p = pr.Price) ∧
    (∀ (tariff : Tariff) (p : Int),
        ¬(tariff.PeriodType = "P1D" ∧ tariff.Prices.length = 1) →
        ¬(tariff.PeriodType = "PT1H" ∧ tariff.Prices.length = 24) →
        tariff.Prices.length ≠ 1 →
        applicablePrice tariff p = findPositionPrice tariff.Prices p) ∧
    (CalculateHourlyTariffs (fun t => t) ⟨0, 2, "measured"⟩
        ⟨"", [], [⟨[⟨"1", 3/2⟩], "DailyFixed", "", "", "", none, "P1D"⟩]⟩ 0
        []).TariffCosts = [("DailyFixed", 3)] ∧
    (CalculateHourlyTariffs (fun t => t) ⟨14, 1, "measured"⟩
        ⟨"", [], [⟨(List.range 24).map
            (fun i => ⟨toString (i + 1), if i + 1 = 15 then (3 : ℚ)/10 else 0⟩),
          "HourlyVariable", "", "", "", none, "PT1H"⟩]⟩ 0
        []).TariffCosts = [("HourlyVariable", 3/10)] := by
  refine ⟨?_, ?_, ?_, ?_, ?_, ?_, ?_⟩
  · intro tz rec tariff sup spotPrices mid subs
    simp [CalculateHourlyTariffs, tariffStep, mapInsert]
  · intro tariff p pr h1 h2
    simp [applicablePrice, h1, h2]
  · intro tariff p pr h1 h2 h3
    simp [applicablePrice, h1, h2, findPositionPrice, h3]
  · intro tariff p pr h1 h2 h3
    have hne : tariff.PeriodType ≠ "P1D" := by
      intro h
      exact h1 ⟨h, by rw [h3]; rfl⟩
    simp [applicablePrice, h3, hne]
  · intro tariff p h1 h2 h3
    by_cases hp : tariff.PeriodType = "PT1H"
    · have h24 : tariff.Prices.length ≠ 24 := fun h => h2 ⟨hp, h⟩
      have hd : tariff.PeriodType ≠ "P1D" := by rw [hp]; decide
      simp [applicablePrice, hp, hd, h24, h3]
    · have hd : tariff.PeriodType = "P1D" → tariff.Prices.length ≠ 1 :=
        fun h hl => h1 ⟨h, hl⟩
      by_cases hpd : tariff.PeriodType = "P1D"
      · simp [applicablePrice, hpd, hd hpd, h3]
      · simp [applicablePrice, hpd, hp, h3]
  · have h : (CalculateHourlyTariffs (fun t => t) ⟨0, 2, "measured"⟩
        ⟨"", [], [⟨[⟨"1", 3/2⟩], "DailyFixed", "", "", "", none, "P1D"⟩]⟩ 0
        []).TariffCosts = [("DailyFixed", 2 * ((3 : ℚ)/2))] := rfl
    rw [h]
    norm_num
  · have h : (CalculateHourlyTariffs (fun t => t) ⟨14, 1, "measured"⟩
        ⟨"", [], [⟨(List.range 24).map
            (fun i => ⟨toString (i + 1), if i + 1 = 15 then (3 : ℚ)/10 else 0⟩),
          "HourlyVariable", "", "", "", none, "PT1H"⟩]⟩ 0
        []).TariffCosts = [("HourlyVariable", 1 * ((3 : ℚ)/10))] := rfl
    rw [h]
    norm_num

/-- Keys of `mapInsert m k v` are the keys of `m` together with `k`. -/
theorem mem_keys_mapInsert (m : List (String × ℚ)) (k : String) (v : ℚ) (x : String)
    (hx : x ∈ (mapInsert m k v).map Prod.fst) : x ∈ m.map Prod.fst ∨ x = k := by
  unfold mapInsert at hx
  by_cases hc : m.any (fun p => p.1 == k)
  · rw [if_pos hc] at hx
    rw [List.map_map] at hx
    rcases List.mem_map.1 hx with ⟨p, hp, hpx⟩
    by_cases hpk : p.1 = k
    · right
      simp only [Function.comp, hpk, beq_self_eq_true, if_pos] at hpx
      exact hpx.symm
    · left
      have hb : (p.1 == k) = false := by simp [hpk]
      simp only [Function.comp, hb, Bool.false_eq_true, if_false] at hpx
      exact List.mem_map.2 ⟨p, hp, hpx⟩
  · rw [if_neg hc] at hx
    simp only [List.map_append, List.mem_append, List.map_cons, List.map_nil,
      List.mem_singleton] at hx
    exact hx

/-- Assigning to a key not yet present adds its value to the map's sum. -/
theorem mapSum_mapInsert_not_mem (m : List (String × ℚ)) (k : String) (v : ℚ)
    (h : k ∉ m.map Prod.fst) : mapSum (mapInsert m k v) = mapSum m + v := by
  have hc : ¬(m.any (fun p => p.1 == k) = true) := by
    simp only [List.any_eq_true, beq_iff_eq]
    rintro ⟨p, hp, hpk⟩
    exact h (List.mem_map.2 ⟨p, hp, hpk⟩)
  unfold mapInsert
  rw [if_neg hc]
  simp [mapSum]

/-- Running total accumulated by the tariff loop: the sum of
`consumption × applicablePrice` over the whole tariff list. -/
theorem tariffStep_foldl_snd (cons : ℚ) (pos : Int) (ts : List Tariff) :
    ∀ (m : List (String × ℚ)) (acc : ℚ),
      (List.foldl (tariffStep cons pos) (m, acc) ts).2
        = acc + (ts.map (fun t => cons * applicablePrice t pos)).sum := by
  induction ts with
  | nil => intro m acc; simp
  | cons t ts ih =>
    intro m acc
    simp only [List.foldl_cons, tariffStep, List.map_cons, List.sum_cons]
    rw [ih]
    ring

/-- When tariff names are pairwise distinct and none is already a key of
the accumulator map, the map built by the tariff loop gains exactly the
sum of all the hour costs. -/
theorem tariffStep_foldl_fst_mapSum (cons : ℚ) (pos : Int) (ts : List Tariff) :
    ∀ (m : List (String × ℚ)) (acc : ℚ),
      (ts.map Tariff.Name).Nodup →
      (∀ t ∈ ts, t.Name ∉ m.map Prod.fst) →
      mapSum (List.foldl (tariffStep cons pos) (m, acc) ts).1
        = mapSum m + (ts.map (fun t => cons * applicablePrice t pos)).sum := by
  induction ts with
  | nil => intro m acc _ _; simp
  | cons t ts ih =>
    intro m acc hnd hdisj
    have hnd' := List.nodup_cons.1 hnd
    simp only [List.foldl_cons, tariffStep, List.map_cons, List.sum_cons]
    rw [ih _ _ hnd'.2]
    · rw [mapSum_mapInsert_not_mem _ _ _ (hdisj t (List.mem_cons_self t ts))]
      ring
    · intro u hu hmem
      rcases mem_keys_mapInsert _ _ _ _ hmem with h1 | h2
      · exact hdisj u (List.mem_cons_of_mem _ hu) h1
      · exact hnd'.1 (h2 ▸ List.mem_map.2 ⟨u, hu, rfl⟩)

/-- C3 counterexample: with two tariffs both named "A" (prices 1 and 2,
daily fixed), consumption 1 kWh, no supplier rate and no spot match, the
hour's `TotalCost` is 3 (the running total adds both tariffs) while the
`tariffCosts` map kept only the last write for "A", so the sum of the
map's values plus supplier cost plus spot cost is 2 ≠ 3: the claimed
identity fails when two tariffs share a name. -/
theorem calculateHourlyTariffs_collision_breaks_sum :
    ¬ ((CalculateHourlyTariffs (fun t => t) ⟨0, 1, "measured"⟩
        ⟨"", [], [⟨[⟨"1", 1⟩], "A", "", "", "", none, "P1D"⟩,
          ⟨[⟨"1", 2⟩], "A", "", "", "", none, "P1D"⟩]⟩ 0 []).TotalCost
      = mapSum (CalculateHourlyTariffs (fun t => t) ⟨0, 1, "measured"⟩
          ⟨"", [], [⟨[⟨"1", 1⟩], "A", "", "", "", none, "P1D"⟩,
            ⟨[⟨"1", 2⟩], "A", "", "", "", none, "P1D"⟩]⟩ 0 []).TariffCosts
        + (CalculateHourlyTariffs (fun t => t) ⟨0, 1, "measured"⟩
          ⟨"", [], [⟨[⟨"1", 1⟩], "A", "", "", "", none, "P1D"⟩,
            ⟨[⟨"1", 2⟩], "A", "", "", "", none, "P1D"⟩]⟩ 0 []).SupplierCost
        + (CalculateHourlyTariffs (fun t => t) ⟨0, 1, "measured"⟩
          ⟨"", [], [⟨[⟨"1", 1⟩], "A", "", "", "", none, "P1D"⟩,
            ⟨[⟨"1", 2⟩], "A", "", "", "", none, "P1D"⟩]⟩ 0 []).SpotCost) := by
  have h1 : (CalculateHourlyTariffs (fun t => t) ⟨0, 1, "measured"⟩
      ⟨"", [], [⟨[⟨"1", 1⟩], "A", "", "", "", none, "P1D"⟩,
        ⟨[⟨"1", 2⟩], "A", "", "", "", none, "P1D"⟩]⟩ 0 []).TotalCost
      = 0 + 1 * (1 : ℚ) + 1 * 2 + 1 * 0 + 1 * 0 := rfl
  have h2 : (CalculateHourlyTariffs (fun t => t) ⟨0, 1, "measured"⟩
      ⟨"", [], [⟨[⟨"1", 1⟩], "A", "", "", "", none, "P1D"⟩,
        ⟨[⟨"1", 2⟩], "A", "", "", "", none, "P1D"⟩]⟩ 0 []).TariffCosts
      = [("A", 1 * (2 : ℚ))] := rfl
  have h3 : (CalculateHourlyTariffs (fun t => t) ⟨0, 1, "measured"⟩
      ⟨"", [], [⟨[⟨"1", 1⟩], "A", "", "", "", none, "P1D"⟩,
        ⟨[⟨"1", 2⟩], "A", "", "", "", none, "P1D"⟩]⟩ 0 []).SupplierCost
      = 1 * (0 : ℚ) := rfl
  have h4 : (CalculateHourlyTariffs (fun t => t) ⟨0, 1, "measured"⟩
      ⟨"", [], [⟨[⟨"1", 1⟩], "A", "", "", "", none, "P1D"⟩,
        ⟨[⟨"1", 2⟩], "A", "", "", "", none, "P1D"⟩]⟩ 0 []).SpotCost
      = 1 * (0 : ℚ) := rfl
  rw [h1, h2, h3, h4]
  simp [mapSum]

/-- C3 (amended): every HourlyTariffCost produced by the engine
satisfies `totalCost = Σ (consumption × applicablePrice) over the tariff
list + supplierCost + spotCost`; when the tariff names are pairwise
distinct (no map collision) this equals the sum of the values of its
`tariffCosts` map + supplierCost + spotCost.  (With a name collision the
map keeps only the last write while the total keeps every tariff, see
the counterexample.) -/
theorem calculateHourlyTariffs_totalCost_eq_mapSum (tz : Int → Int)
    (rec : HourlyConsumption) (chargesData : ChargesResult) (sup : ℚ)
    (spotPrices : List SpotPriceRecord)
    (h : (chargesData.Tariffs.map Tariff.Name).Nodup) :
    (CalculateHourlyTariffs tz rec chargesData sup spotPrices).TotalCost
      = mapSum (CalculateHourlyTariffs tz rec chargesData sup spotPrices).TariffCosts
        + (CalculateHourlyTariffs tz rec chargesData sup spotPrices).SupplierCost
        + (CalculateHourlyTariffs tz rec chargesData sup spotPrices).SpotCost := by
  unfold CalculateHourlyTariffs
  simp only
  rw [tariffStep_foldl_snd,
    tariffStep_foldl_fst_mapSum _ _ _ _ _ h (by intro t ht hmem; simp at hmem)]
  simp [mapSum]

/-- C3 witness: the amended identity evaluated on a concrete schedule of
two distinctly named tariffs. -/
theorem calculateHourlyTariffs_totalCost_eq_mapSum_witness :
    (CalculateHourlyTariffs (fun t => t) ⟨0, 1, "measured"⟩
        ⟨"", [], [⟨[⟨"1", 1⟩], "A", "", "", "", none, "P1D"⟩,
          ⟨[⟨"1", 2⟩], "B", "", "", "", none, "P1D"⟩]⟩ 0 []).TotalCost
      = mapSum (CalculateHourlyTariffs (fun t => t) ⟨0, 1, "measured"⟩
          ⟨"", [], [⟨[⟨"1", 1⟩], "A", "", "", "", none, "P1D"⟩,
            ⟨[⟨"1", 2⟩], "B", "", "", "", none, "P1D"⟩]⟩ 0 []).TariffCosts
        + (CalculateHourlyTariffs (fun t => t) ⟨0, 1, "measured"⟩
          ⟨"", [], [⟨[⟨"1", 1⟩], "A", "", "", "", none, "P1D"⟩,
            ⟨[⟨"1", 2⟩], "B", "", "", "", none, "P1D"⟩]⟩ 0 []).SupplierCost
        + (CalculateHourlyTariffs (fun t => t) ⟨0, 1, "measured"⟩
          ⟨"", [], [⟨[⟨"1", 1⟩], "A", "", "", "", none, "P1D"⟩,
            ⟨[⟨"1", 2⟩], "B", "", "", "", none, "P1D"⟩]⟩ 0 []).SpotCost :=
  calculateHourlyTariffs_totalCost_eq_mapSum (fun t => t) ⟨0, 1, "measured"⟩
    ⟨"", [], [⟨[⟨"1", 1⟩], "A", "", "", "", none, "P1D"⟩,
      ⟨[⟨"1", 2⟩], "B", "", "", "", none, "P1D"⟩]⟩ 0 [] (by simp)

/-- Hourly instants of `[startDate, endDate)`: exactly the values taken
by the Go loop `for currentTime.Before(endDate)` stepping
`currentTime.Add(1 * time.Hour)` from `startDate` (instants at hour
granularity). -/
def hoursFrom (startDate endDate : Int) : List Int :=
  (List.range (endDate - startDate).toNat).map (fun (i : Nat) => startDate + (i : Int))

/-- EstimateConsumptionForPeriod of `lib/billing` (frequency.go):
`hoursInPeriod` is the truncated hour count of the period,
`totalPeriodConsumption` the annual volume times `0.0833` (Monthly) or
`0.25` (any other frequency, i.e. Quarterly), spread uniformly over the
hours of `[startDate, endDate)` and tagged `"ESTIMATED"`.  The Go
function never returns a non-nil error; when the loop runs zero times
the result is the empty list (Go's `nil` slice) with a nil error, which
is `Except.ok []` here.  (At `hoursInPeriod = 0` the Go average is the
float `+Inf`/`NaN`; it is never placed in a record, so the `ℚ`
convention `x / 0 = 0` is observationally identical.) -/
def EstimateConsumptionForPeriod (estimatedAnnualVolume : Int)
    (startDate endDate : Int) (frequency : BillingFrequency) :
    Except String (List HourlyConsumption) :=
  let hoursInPeriod : Int := endDate - startDate
  let totalPeriodConsumption : ℚ :=
    if frequency = Monthly then (estimatedAnnualVolume : ℚ) * 0.0833
    else (estimatedAnnualVolume : ℚ) * 0.25
  let avgHourlyConsumption := totalPeriodConsumption / (hoursInPeriod : ℚ)
  Except.ok ((hoursFrom startDate endDate).map
    (fun currentTime => ⟨currentTime, avgHourlyConsumption, "ESTIMATED"⟩))

/-- Sum of the uniform consumption series: the constant hourly value
times the hour count. -/
theorem sum_uniform_consumption (s e : Int) (X : ℚ) :
    (((hoursFrom s e).map
          (fun t => (⟨t, X, "ESTIMATED"⟩ : HourlyConsumption))).map
        HourlyConsumption.Consumption).sum = ((e - s).toNat : ℚ) * X := by
  rw [List.map_map]
  have hrep : (hoursFrom s e).map
      (HourlyConsumption.Consumption ∘ fun t => (⟨t, X, "ESTIMATED"⟩ : HourlyConsumption))
      = List.replicate ((e - s).toNat) X := by
    apply List.eq_replicate.2
    refine ⟨by rw [List.length_map, hoursFrom, List.length_map, List.length_range], ?_⟩
    intro b hb
    simp only [List.mem_map, Function.comp] at hb
    obtain ⟨t, _, rfl⟩ := hb
    rfl
  rw [hrep, List.sum_replicate, nsmul_eq_mul]

/-- C4: for start < end (whole-hour instants), the estimator returns
exactly `hoursInPeriod` records, one per clock hour of `[start, end)`,
all carrying the same value `totalPeriodVolume / hoursInPeriod` with
`totalPeriodVolume = annualVolume × 0.0833` (Monthly) or `× 0.25`
(Quarterly), all tagged `"ESTIMATED"`, and summing exactly (over `ℚ`) to
`totalPeriodVolume`. -/
theorem estimateConsumptionForPeriod_uniform (estimatedAnnualVolume : Int)
    (startDate endDate : Int) (frequency : BillingFrequency)
    (h : startDate < endDate) :
    ∃ records,
      EstimateConsumptionForPeriod estimatedAnnualVolume startDate endDate frequency
          = Except.ok records ∧
      records.length = (endDate - startDate).toNat ∧
      records.map HourlyConsumption.DateTime = hoursFrom startDate endDate ∧
      (∀ rec ∈ records,
        rec.Quality = "ESTIMATED" ∧
        rec.Consumption
          = (if frequency = Monthly then (estimatedAnnualVolume : ℚ) * 0.0833
              else (estimatedAnnualVolume : ℚ) * 0.25) / ((endDate - startDate : Int) : ℚ)) ∧
      (frequency = Monthly →
        (records.map HourlyConsumption.Consumption).sum
          = (estimatedAnnualVolume : ℚ) * 0.0833) ∧
      (frequency = Quarterly →
        (records.map HourlyConsumption.Consumption).sum
          = (estimatedAnnualVolume : ℚ) * 0.25) := by
  have hn : ((endDate - startDate : Int) : ℚ) ≠ 0 := by
    have h0 : (0 : Int) < endDate - startDate := by omega
    exact_mod_cast h0.ne.symm
  have hcast : (((endDate - startDate).toNat : ℚ)) = ((endDate - startDate : Int) : ℚ) := by
    have h0 : (0 : Int) ≤ endDate - startDate := by omega
    rw [show (((endDate - startDate).toNat : ℚ)) = (((endDate - startDate).toNat : Int) : ℚ)
        from by push_cast; ring]
    rw [Int.toNat_of_nonneg h0]
  refine ⟨(hoursFrom startDate endDate).map
      (fun currentTime =>
        ⟨currentTime,
          (if frequency = Monthly then (estimatedAnnualVolume : ℚ) * 0.0833
            else (estimatedAnnualVolume : ℚ) * 0.25) / ((endDate - startDate : Int) : ℚ),
          "ESTIMATED"⟩), rfl, ?_, ?_, ?_, ?_, ?_⟩
  · rw [List.length_map, hoursFrom, List.length_map, List.length_range]
  · rw [List.map_map]
    have : (HourlyConsumption.DateTime ∘ fun currentTime =>
        (⟨currentTime,
          (if frequency = Monthly then (estimatedAnnualVolume : ℚ) * 0.0833
            else (estimatedAnnualVolume : ℚ) * 0.25) / ((endDate - startDate : Int) : ℚ),
          "ESTIMATED"⟩ : HourlyConsumption)) = id := rfl
    rw [this, List.map_id]
  · intro rec hrec
    simp only [List.mem_map] at hrec
    obtain ⟨t, _, rfl⟩ := hrec
    exact ⟨rfl, rfl⟩
  · intro hf
    subst hf
    rw [if_pos rfl, sum_uniform_consumption, hcast, mul_comm,
      div_mul_cancel₀ _ hn]
  · intro hf
    subst hf
    rw [if_neg (by decide), sum_uniform_consumption, hcast, mul_comm,
      div_mul_cancel₀ _ hn]

/-- C4 witness: the estimator evaluated on the concrete period `[0, 2)`
with annual volume 10000, Monthly. -/
theorem estimateConsumptionForPeriod_uniform_witness :
    ∃ records,
      EstimateConsumptionForPeriod 10000 0 2 Monthly = Except.ok records ∧
      records.length = ((2 : Int) - 0).toNat ∧
      records.map HourlyConsumption.DateTime = hoursFrom 0 2 ∧
      (∀ rec ∈ records,
        rec.Quality = "ESTIMATED" ∧
        rec.Consumption
          = (if Monthly = Monthly then ((10000 : Int) : ℚ) * 0.0833
              else ((10000 : Int) : ℚ) * 0.25) / (((2 : Int) - 0 : Int) : ℚ)) ∧
      (Monthly = Monthly →
        (records.map HourlyConsumption.Consumption).sum
          = ((10000 : Int) : ℚ) * 0.0833) ∧
      (Monthly = Quarterly →
        (records.map HourlyConsumption.Consumption).sum
          = ((10000 : Int) : ℚ) * 0.25) :=
  estimateConsumptionForPeriod_uniform 10000 0 2 Monthly (by norm_num)

/-- C5 counterexample: for `start = 5 ≥ end = 3` (zero-hour period) the
estimator does NOT return an error: the Go loop body never runs and the
function returns a nil slice with a nil error, i.e. success with the
empty record list. -/
theorem estimateConsumptionForPeriod_ok_on_empty_period :
    EstimateConsumptionForPeriod 1000 5 3 Monthly = Except.ok [] ∧
    EstimateConsumptionForPeriod 1000 5 5 Monthly = Except.ok [] := by
  constructor <;> rfl

/-- C5 (amended): the estimator never fails; whenever the period has
zero hours (start ≥ end) it returns success with an empty record list
rather than an error. -/
theorem estimateConsumptionForPeriod_empty_of_ge (estimatedAnnualVolume : Int)
    (startDate endDate : Int) (frequency : BillingFrequency)
    (h : endDate ≤ startDate) :
    EstimateConsumptionForPeriod estimatedAnnualVolume startDate endDate frequency
      = Except.ok [] := by
  unfold EstimateConsumptionForPeriod hoursFrom
  have h0 : (endDate - startDate).toNat = 0 := by omega
  rw [h0]
  rfl

/-- C5 witness: the amended statement at the concrete zero-hour period
`start = 5, end = 3`. -/
theorem estimateConsumptionForPeriod_empty_of_ge_witness :
    EstimateConsumptionForPeriod 1000 5 3 Quarterly = Except.ok [] :=
  estimateConsumptionForPeriod_empty_of_ge 1000 5 3 Quarterly (by norm_num)

/-- generateFixedSpotPricesForPeriod of `lib/billing` (frequency.go):
one record per hour of `[startTime, endTime)` at the fixed price
(converted to DKK/MWh by `× 1000`, EUR via the fixed divisor 7.45);
`HourUTC`/`HourDK` carry the instant and its Copenhagen localisation. -/
def generateFixedSpotPricesForPeriod (tz : Int → Int) (startTime endTime : Int)
    (priceArea : String) (fixedPrice : ℚ) : List SpotPriceRecord :=
  (hoursFrom startTime endTime).map
    (fun currentTime =>
      ⟨currentTime, tz currentTime, priceArea, fixedPrice * 1000,
        fixedPrice * 1000 / 7.45⟩)

/-- HybridEstimation struct of `lib/billing` (frequency.go). -/
structure HybridEstimation where
  ActualConsumption : List HourlyConsumption
  ActualSpotPrices : List SpotPriceRecord
  ActualTotalKWh : ℚ
  EstimatedConsumption : List HourlyConsumption
  EstimatedSpotPrices : List SpotPriceRecord
  EstimatedTotalKWh : ℚ
  CombinedConsumption : List HourlyConsumption
  CombinedSpotPrices : List SpotPriceRecord
  TotalEstimatedkWh : ℚ
  SplitDateTime : Int
  EstimationMethod : String
  ActualHours : Nat
  EstimatedHours : Nat
  FixedSpotPrice : ℚ
deriving Repr, DecidableEq

/-- CreateHybridEstimation of `lib/billing` (frequency.go).  The
ambient `time.Now().In(copenhagen)` is the explicit parameter `now`
(hour-truncated, as the source truncates it), and the external
spot-price fetch (`FetchSpotPricesForPeriod`, an HTTP collaborator) is
the parameter `fetchSpotPricesForPeriod`.  The split instant is the
truncated now minus two civil days (48 hours; a DST transition inside
the two days would make the civil step 47 or 49 hours, which shifts only
the split point, not the structure proved below).  The whole period's
consumption is always synthesised from the annual volume and then
partitioned by `now` into past/future halves, retagged
`ESTIMATED_PAST`/`ESTIMATED_FUTURE` (one Go loop with an if/else;
embedded as the two complementary filters). -/
def CreateHybridEstimation (tz : Int → Int)
    (fetchSpotPricesForPeriod : Int → Int → String → List SpotPriceRecord)
    (estimatedAnnualVolume : Int) (period : Period Int)
    (frequency : BillingFrequency) (refreshToken meterPointId priceArea : String)
    (fixedSpotPrice : ℚ) (now : Int) : Except String HybridEstimation :=
  let spotPriceSplitDateTime := now - 48
  match EstimateConsumptionForPeriod estimatedAnnualVolume period.Start period.End
      frequency with
  | Except.error e => Except.error e
  | Except.ok allEstimatedConsumption =>
    let actualSpotPrices :=
      if spotPriceSplitDateTime > period.Start then
        fetchSpotPricesForPeriod period.Start spotPriceSplitDateTime priceArea
      else []
    let estimatedSpotPrices :=
      if spotPriceSplitDateTime > period.Start then
        generateFixedSpotPricesForPeriod tz spotPriceSplitDateTime period.End
          priceArea fixedSpotPrice
      else
        generateFixedSpotPricesForPeriod tz period.Start period.End
          priceArea fixedSpotPrice
    let combinedSpotPrices := actualSpotPrices ++ estimatedSpotPrices
    let totalEstimatedkWh :=
      (allEstimatedConsumption.map HourlyConsumption.Consumption).sum
    let currentDateTime := now
    let pastConsumption :=
      (allEstimatedConsumption.filter
          (fun hourly => decide (hourly.DateTime < currentDateTime))).map
        (fun hourly => { hourly with Quality := "ESTIMATED_PAST" })
    let futureConsumption :=
      (allEstimatedConsumption.filter
          (fun hourly => !decide (hourly.DateTime < currentDateTime))).map
        (fun hourly => { hourly with Quality := "ESTIMATED_FUTURE" })
    let pastTotalKWh := (pastConsumption.map HourlyConsumption.Consumption).sum
    let futureTotalKWh := (futureConsumption.map HourlyConsumption.Consumption).sum
    Except.ok
      { ActualConsumption := pastConsumption
        ActualSpotPrices := actualSpotPrices
        ActualTotalKWh := pastTotalKWh
        EstimatedConsumption := futureConsumption
        EstimatedSpotPrices := estimatedSpotPrices
        EstimatedTotalKWh := futureTotalKWh
        CombinedConsumption := allEstimatedConsumption
        CombinedSpotPrices := combinedSpotPrices
        TotalEstimatedkWh := totalEstimatedkWh
        SplitDateTime := currentDateTime
        EstimationMethod := "Hybrid aconto"
        ActualHours := pastConsumption.length
        EstimatedHours := futureConsumption.length
        FixedSpotPrice := fixedSpotPrice }

/-- C7: every hybrid estimation satisfies: the combined spot-price
series is the actual sub-series followed by the fixed-price sub-series;
when the split instant (`now − 48h`) is after `period.Start` the actual
sub-series is the fetch over `[period.Start, split)` and the fixed
sub-series covers `[split, period.End)`, otherwise the actual part is
empty and the fixed series covers the whole period; and
`len past + len future = len combined = hoursInPeriod`, with the
combined spot series length the sum of its two sub-series lengths. -/
theorem createHybridEstimation_split (tz : Int → Int)
    (fetchSpotPricesForPeriod : Int → Int → String → List SpotPriceRecord)
    (estimatedAnnualVolume : Int) (period : Period Int)
    (frequency : BillingFrequency) (refreshToken meterPointId priceArea : String)
    (fixedSpotPrice : ℚ) (now : Int) (E : HybridEstimation)
    (hlt : period.Start < period.End)
    (hE : CreateHybridEstimation tz fetchSpotPricesForPeriod estimatedAnnualVolume
        period frequency refreshToken meterPointId priceArea fixedSpotPrice now
        = Except.ok E) :
    E.CombinedSpotPrices = E.ActualSpotPrices ++ E.EstimatedSpotPrices ∧
    (now - 48 > period.Start →
      E.ActualSpotPrices
          = fetchSpotPricesForPeriod period.Start (now - 48) priceArea ∧
      E.EstimatedSpotPrices
          = generateFixedSpotPricesForPeriod tz (now - 48) period.End priceArea
              fixedSpotPrice) ∧
    (¬ now - 48 > period.Start →
      E.ActualSpotPrices = [] ∧
      E.EstimatedSpotPrices
          = generateFixedSpotPricesForPeriod tz period.Start period.End priceArea
              fixedSpotPrice) ∧
    E.ActualConsumption.length + E.EstimatedConsumption.length
        = E.CombinedConsumption.length ∧
    (E.CombinedConsumption.length : Int) = period.End - period.Start ∧
    E.CombinedSpotPrices.length
        = E.ActualSpotPrices.length + E.EstimatedSpotPrices.length := by
  unfold CreateHybridEstimation at hE
  simp only [EstimateConsumptionForPeriod] at hE
  rw [Except.ok.injEq] at hE
  subst hE
  refine ⟨rfl, ?_, ?_, ?_, ?_, by simp⟩
  · intro hgt
    constructor
    · simp only [if_pos hgt]
    · simp only [if_pos hgt]
  · intro hgt
    constructor
    · simp only [if_neg hgt]
    · simp only [if_neg hgt]
  · simp only [List.length_map]
    have key : ∀ (l : List HourlyConsumption),
        (l.filter (fun hourly => decide (hourly.DateTime < now))).length +
          (l.filter (fun hourly => !decide (hourly.DateTime < now))).length
          = l.length := fun l => (List.length_eq_length_filter_add _).symm
    rw [key]
    exact List.length_map _ _
  · simp only [List.length_map, hoursFrom, List.length_range]
    have h0 : (0 : Int) ≤ period.End - period.Start := by omega
    rw [Int.toNat_of_nonneg h0]

/-- C7 witness: the split properties evaluated on the concrete hybrid
estimation for the period `[0, 10)` at `now = 50` (split instant 2),
annual volume 8760, empty fetch result. -/
theorem createHybridEstimation_split_witness :
    ∃ E, CreateHybridEstimation (fun t => t) (fun _ _ _ => []) 8760
        ⟨0, 10, "", Monthly, Aconto⟩ Monthly "" "" "DK1" (61/100) 50
        = Except.ok E ∧
      (E.CombinedSpotPrices = E.ActualSpotPrices ++ E.EstimatedSpotPrices ∧
      ((50 : Int) - 48 > 0 →
        E.ActualSpotPrices = ([] : List SpotPriceRecord) ∧
        E.EstimatedSpotPrices
            = generateFixedSpotPricesForPeriod (fun t => t) ((50 : Int) - 48) 10 "DK1"
                (61/100)) ∧
      (¬ (50 : Int) - 48 > 0 →
        E.ActualSpotPrices = [] ∧
        E.EstimatedSpotPrices
            = generateFixedSpotPricesForPeriod (fun t => t) 0 10 "DK1" (61/100)) ∧
      E.ActualConsumption.length + E.EstimatedConsumption.length
          = E.CombinedConsumption.length ∧
      (E.CombinedConsumption.length : Int) = 10 - 0 ∧
      E.CombinedSpotPrices.length
          = E.ActualSpotPrices.length + E.EstimatedSpotPrices.length) := by
  refine ⟨_, rfl, ?_⟩
  exact createHybridEstimation_split (fun t => t) (fun _ _ _ => []) 8760
    ⟨0, 10, "", Monthly, Aconto⟩ Monthly "" "" "DK1" (61/100) 50 _
    (by norm_num) rfl

/-- GetTotalTariffCosts of `lib/billing`: sum of `TotalCost` over all
hours (each hour's total already includes supplier and spot cost). -/
def GetTotalTariffCosts (hourlyTariffCosts : List HourlyTariffCost) : ℚ :=
  (hourlyTariffCosts.map HourlyTariffCost.TotalCost).sum

/-- Body of the subscription loop of main.go: period cost of one
subscription is `price × quantity × monthsInPeriod`, accumulated into
the name-keyed breakdown map and the running subscription total. -/
def subscriptionStep (monthsInPeriod : ℚ) (acc : List (String × ℚ) × ℚ)
    (subscription : Subscription) : List (String × ℚ) × ℚ :=
  let monthlyCost := subscription.Price * (subscription.Quantity : ℚ)
  let periodCost := monthlyCost * monthsInPeriod
  (mapInsert acc.1 subscription.Name periodCost, acc.2 + periodCost)

/-- Aggregated totals computed by main.go after the per-hour engine. -/
structure BillTotals where
  totalTariffCosts : ℚ
  subscriptionBreakdown : List (String × ℚ)
  totalSubscriptionCost : ℚ
  totalBill : ℚ
  totalVAT : ℚ
  totalBillWithVAT : ℚ
deriving Repr, DecidableEq

/-- Aggregation block of main.go: `monthsInPeriod` is 1 for Monthly and
3 otherwise (Quarterly); subscriptions are billed per calendar month;
the bill subtotal adds the usage-based total and the subscription total;
VAT is the fixed Danish 25% and the final total adds it on. -/
def computeBill (hourlyTariffCosts : List HourlyTariffCost)
    (subscriptions : List Subscription) (frequency : BillingFrequency) :
    BillTotals :=
  let totalTariffCosts := GetTotalTariffCosts hourlyTariffCosts
  let monthsInPeriod : ℚ := if frequency = Monthly then 1 else 3
  let folded := subscriptions.foldl (subscriptionStep monthsInPeriod) ([], 0)
  let totalBill := totalTariffCosts + folded.2
  let totalVAT := totalBill * 0.25
  let totalBillWithVAT := totalBill + totalVAT
  { totalTariffCosts := totalTariffCosts
    subscriptionBreakdown := folded.1
    totalSubscriptionCost := folded.2
    totalBill := totalBill
    totalVAT := totalVAT
    totalBillWithVAT := totalBillWithVAT }

/-- Running total accumulated by the subscription loop. -/
theorem subscriptionStep_foldl_snd (months : ℚ) (subs : List Subscription) :
    ∀ (m : List (String × ℚ)) (acc : ℚ),
      (List.foldl (subscriptionStep months) (m, acc) subs).2
        = acc + (subs.map
            (fun sub => sub.Price * (sub.Quantity : ℚ) * months)).sum := by
  induction subs with
  | nil => intro m acc; simp
  | cons sub subs ih =>
    intro m acc
    simp only [List.foldl_cons, subscriptionStep, List.map_cons, List.sum_cons]
    rw [ih]
    ring

/-- C9: each subscription contributes `unitPrice × quantity ×
monthsInPeriod` (1 for Monthly, 3 for Quarterly) to the subscription
total; the subtotal is the usage-based total (tariffs incl. supplier and
spot) plus the subscription total; VAT is `subtotal × 25/100`; the final
total is `subtotal + VAT`; and concretely a subtotal of 1000 DKK yields
VAT 250 DKK and total 1250 DKK. -/
theorem computeBill_aggregation (hourlyTariffCosts : List HourlyTariffCost)
    (subscriptions : List Subscription) (frequency : BillingFrequency) :
    (computeBill hourlyTariffCosts subscriptions frequency).totalSubscriptionCost
        = (subscriptions.map
            (fun sub => sub.Price * (sub.Quantity : ℚ)
              * (if frequency = Monthly then 1 else 3))).sum ∧
    (computeBill hourlyTariffCosts subscriptions frequency).totalBill
        = GetTotalTariffCosts hourlyTariffCosts
          + (computeBill hourlyTariffCosts subscriptions frequency).totalSubscriptionCost ∧
    (computeBill hourlyTariffCosts subscriptions frequency).totalVAT
        = (computeBill hourlyTariffCosts subscriptions frequency).totalBill * (25 / 100) ∧
    (computeBill hourlyTariffCosts subscriptions frequency).totalBillWithVAT
        = (computeBill hourlyTariffCosts subscriptions frequency).totalBill
          + (computeBill hourlyTariffCosts subscriptions frequency).totalVAT ∧
    (computeBill [] [⟨1000, 1, "base", "", "", "", none, "P1D"⟩] Monthly).totalBill
        = 1000 ∧
    (computeBill [] [⟨1000, 1, "base", "", "", "", none, "P1D"⟩] Monthly).totalVAT
        = 250 ∧
    (computeBill [] [⟨1000, 1, "base", "", "", "", none, "P1D"⟩]
        Monthly).totalBillWithVAT = 1250 := by
  refine ⟨?_, rfl, ?_, rfl, ?_, ?_, ?_⟩
  · simp only [computeBill]
    rw [subscriptionStep_foldl_snd]
    simp
  · simp only [computeBill]
    norm_num
  · norm_num [computeBill, subscriptionStep, GetTotalTariffCosts, mapInsert]
  · norm_num [computeBill, subscriptionStep, GetTotalTariffCosts, mapInsert]
  · norm_num [computeBill, subscriptionStep, GetTotalTariffCosts, mapInsert]

/-- Europe/Copenhagen civil datetime, for the calendar-level period
generator (which converts every instant to Copenhagen before reading
year/month and constructs midnight-on-the-1st boundaries there): year,
month, day and a time-of-day remainder (hour/minute/second folded into
one lexicographic component).  `time.After`/`Before` on instants of one
civil timezone coincide with lexicographic civil order except inside the
repeated DST fall-back hour; every comparison the generator performs
involves a midnight month boundary, which is never inside that hour. -/
structure CTime where
  y : Int
  m : Int
  d : Int
  tod : Int
deriving Repr, DecidableEq

/-- Strict lexicographic order on civil datetimes (`time.Before`). -/
def CTime.ltb (a b : CTime) : Bool :=
  (a.y < b.y) || (a.y == b.y &&
    ((a.m < b.m) || (a.m == b.m &&
      ((a.d < b.d) || (a.d == b.d && a.tod < b.tod)))))

/-- Go `a.After(b)` on civil datetimes. -/
def CTime.after (a b : CTime) : Bool :=
  CTime.ltb b a

/-- Month index of a civil datetime: months since year 0.  Midnight
1st-of-month datetimes are in bijection with their month index. -/
def monthIdx (t : CTime) : Int :=
  t.y * 12 + (t.m - 1)

/-- The midnight 1st-of-month datetime of a month index. -/
def idxToStart (i : Int) : CTime :=
  ⟨i / 12, i % 12 + 1, 1, 0⟩

/-- GetFirstCompleteMonth of `lib/billing` (Copenhagen version): the
midnight 1st of the calendar month after `startDate` (already a
Copenhagen civil datetime here). -/
def GetFirstCompleteMonth (startDate : CTime) : CTime :=
  let nextMonth := startDate.m + 1
  if nextMonth > 12 then ⟨startDate.y + 1, 1, 1, 0⟩
  else ⟨startDate.y, nextMonth, 1, 0⟩

/-- GetFirstCompleteQuarter of `lib/billing` (Copenhagen version): the
first quarter boundary of the start's year strictly after it, else
January 1 of the next year. -/
def GetFirstCompleteQuarter (startDate : CTime) : CTime :=
  let year := startDate.y
  let quarters : List CTime :=
    [⟨year, 1, 1, 0⟩, ⟨year, 4, 1, 0⟩, ⟨year, 7, 1, 0⟩, ⟨year, 10, 1, 0⟩]
  match quarters.find? (fun quarter => quarter.after startDate) with
  | some quarter => quarter
  | none => ⟨year + 1, 1, 1, 0⟩

/-- GetLastCompletePeriod of `lib/billing` (Copenhagen version); the
ambient `time.Now()` is the explicit parameter `now`. -/
def GetLastCompletePeriod (frequency : BillingFrequency) (now : CTime) :
    Except String CTime :=
  if frequency = Monthly then
    if now.m = 1 then Except.ok ⟨now.y - 1, 12, 1, 0⟩
    else Except.ok ⟨now.y, now.m - 1, 1, 0⟩
  else if frequency = Quarterly then
    if now.m ≥ 10 then Except.ok ⟨now.y, 7, 1, 0⟩
    else if now.m ≥ 7 then Except.ok ⟨now.y, 4, 1, 0⟩
    else if now.m ≥ 4 then Except.ok ⟨now.y, 1, 1, 0⟩
    else Except.ok ⟨now.y - 1, 10, 1, 0⟩
  else Except.error "invalid billing frequency"

/-- Historical generation loop of GenerateAvailablePeriods, carried on
month indices: every `current` the Go loop visits is a midnight
1st-of-month Copenhagen datetime, `current.AddDate(0, step, 0)` on such
a datetime adds `step` to its month index, and `!current.After(lastPeriod)`
between two such datetimes is month-index comparison (see
`after_eq_monthIdx_lt`).  Structural recursion on an explicit iteration
bound: with `fuel = (lastIdx + 1 - current).toNat` and `step ≥ 1` the
bound is never exhausted before the guard stops the loop, so the
captured loop is exact. -/
def genStartsFuel : Nat → Int → Int → Nat → List Int
  | 0, _, _, _ => []
  | Nat.succ fuel, lastIdx, current, step =>
    if current > lastIdx then []
    else current :: genStartsFuel fuel lastIdx (current + step) step

/-- Start month indices of the historical generation loop. -/
def genStarts (lastIdx current : Int) (step : Nat) : List Int :=
  genStartsFuel ((lastIdx + 1 - current).toNat) lastIdx current step

/-- Month name used by Go's `Format("January 2006")`. -/
def monthName (m : Int) : String :=
  if m = 1 then "January" else if m = 2 then "February"
  else if m = 3 then "March" else if m = 4 then "April"
  else if m = 5 then "May" else if m = 6 then "June"
  else if m = 7 then "July" else if m = 8 then "August"
  else if m = 9 then "September" else if m = 10 then "October"
  else if m = 11 then "November" else if m = 12 then "December" else ""

/-- Label `current.Format("January 2006")` of a monthly period. -/
def monthLabel (t : CTime) : String :=
  monthName t.m ++ " " ++ toString t.y

/-- Label `fmt.Sprintf("Q%d %d", quarter, year)` of a quarterly period. -/
def quarterLabel (t : CTime) : String :=
  "Q" ++ toString ((t.m - 1) / 3 + 1) ++ " " ++ toString t.y

/-- One historical Period of the generation loop, from its start month
index: `End = current.AddDate(0, step, 0)`, label per frequency,
calculation type Historical. -/
def mkHistPeriod (frequency : BillingFrequency) (step : Nat) (i : Int) :
    Period CTime :=
  { Start := idxToStart i
    End := idxToStart (i + step)
    Label := if frequency = Monthly then monthLabel (idxToStart i)
      else quarterLabel (idxToStart i)
    Frequency := frequency
    CalculationType := Historical }

/-- Aconto start enumeration of GetNextAcontoPeriods, Monthly case: a
fixed count of consecutive month boundaries from the current month. -/
def acontoMonthlyStarts : Nat → Int → Int → List CTime
  | 0, _, _ => []
  | Nat.succ n, year, month =>
    ⟨year, month, 1, 0⟩ ::
      (if month + 1 > 12 then acontoMonthlyStarts n (year + 1) 1
       else acontoMonthlyStarts n year (month + 1))

/-- Aconto start enumeration of GetNextAcontoPeriods, Quarterly case. -/
def acontoQuarterlyStarts : Nat → Int → Int → List CTime
  | 0, _, _ => []
  | Nat.succ n, year, quarterMonth =>
    ⟨year, quarterMonth, 1, 0⟩ ::
      (if quarterMonth + 3 > 12 then acontoQuarterlyStarts n (year + 1) 1
       else acontoQuarterlyStarts n year (quarterMonth + 3))

/-- GetNextAcontoPeriods of `lib/billing`; ambient now is explicit. -/
def GetNextAcontoPeriods (frequency : BillingFrequency) (numberOfPeriods : Nat)
    (now : CTime) : Except String (List CTime) :=
  if frequency = Monthly then
    Except.ok (acontoMonthlyStarts numberOfPeriods now.y now.m)
  else if frequency = Quarterly then
    if now.m < 3 then
      Except.ok (acontoQuarterlyStarts numberOfPeriods now.y 4)
    else if now.m < 6 then
      Except.ok (acontoQuarterlyStarts numberOfPeriods now.y 7)
    else if now.m < 9 then
      Except.ok (acontoQuarterlyStarts numberOfPeriods now.y 10)
    else
      Except.ok (acontoQuarterlyStarts numberOfPeriods (now.y + 1) 1)
  else Except.error "invalid billing frequency"

/-- GenerateAvailablePeriods of `lib/billing` (Copenhagen version, with
calculation type): Historical enumerates complete periods from the first
complete month/quarter after the consumer start to the last complete
period before `now`; otherwise 6 future aconto periods are enumerated.
The Go `log.Fatal` on a GetLastCompletePeriod error (unreachable for a
valid frequency) is error propagation here. -/
def GenerateAvailablePeriods (consumerStartDate : CTime)
    (frequency : BillingFrequency) (calculationType : CalculationType)
    (now : CTime) : Except String (List (Period CTime)) :=
  if calculationType = Historical then
    match
      (if frequency = Monthly then
          Except.ok (GetFirstCompleteMonth consumerStartDate)
        else if frequency = Quarterly then
          Except.ok (GetFirstCompleteQuarter consumerStartDate)
        else Except.error ("error in reading frequency" : String)) with
    | Except.error e => Except.error e
    | Except.ok firstStart =>
      match GetLastCompletePeriod frequency now with
      | Except.error e => Except.error e
      | Except.ok lastPeriod =>
        let step : Nat := if frequency = Monthly then 1 else 3
        Except.ok ((genStarts (monthIdx lastPeriod) (monthIdx firstStart) step).map
          (mkHistPeriod frequency step))
  else
    match GetNextAcontoPeriods frequency 6 now with
    | Except.error e => Except.error e
    | Except.ok startPeriods =>
      Except.ok (startPeriods.map
        (fun start =>
          { Start := start
            End := idxToStart (monthIdx start + (if frequency = Monthly then 1 else 3))
            Label := (if frequency = Monthly then monthLabel start
              else quarterLabel start) ++ " (Aconto)"
            Frequency := frequency
            CalculationType := Aconto }))

/-- Justification of the month-index refinement of the generation loop:
between midnight 1st-of-month civil datetimes (with a month in range),
Go's `After` is exactly month-index comparison. -/
theorem after_eq_monthIdx_lt (a b : CTime)
    (ha : a.d = 1 ∧ a.tod = 0 ∧ 1 ≤ a.m ∧ a.m ≤ 12)
    (hb : b.d = 1 ∧ b.tod = 0 ∧ 1 ≤ b.m ∧ b.m ≤ 12) :
    CTime.after a b = true ↔ monthIdx b < monthIdx a := by
  rcases a with ⟨ay, am, ad, at'⟩
  rcases b with ⟨by', bm, bd, bt⟩
  simp only [CTime.after, CTime.ltb, monthIdx, Bool.or_eq_true, Bool.and_eq_true,
    decide_eq_true_eq, beq_iff_eq] at *
  omega

/-- Field facts of `idxToStart`: always a midnight 1st-of-month civil
datetime with month in range. -/
theorem idxToStart_fields (i : Int) :
    (idxToStart i).d = 1 ∧ (idxToStart i).tod = 0 ∧
      1 ≤ (idxToStart i).m ∧ (idxToStart i).m ≤ 12 := by
  refine ⟨rfl, rfl, ?_, ?_⟩
  · show 1 ≤ i % 12 + 1
    omega
  · show i % 12 + 1 ≤ 12
    omega

/-- Month index and canonical start are inverse on month indices. -/
theorem monthIdx_idxToStart (i : Int) : monthIdx (idxToStart i) = i := by
  show i / 12 * 12 + (i % 12 + 1 - 1) = i
  omega

/-- Consecutive starts produced by the generation loop differ by exactly
`step` months. -/
theorem genStartsFuel_chain (fuel : Nat) (lastIdx current : Int) (step : Nat) :
    List.Chain' (fun a b => b = a + (step : Int))
      (genStartsFuel fuel lastIdx current step) := by
  induction fuel generalizing current with
  | zero => exact List.chain'_nil
  | succ fuel ih =>
    rw [genStartsFuel]
    by_cases h : current > lastIdx
    · rw [if_pos h]
      exact List.chain'_nil
    · rw [if_neg h]
      refine List.chain'_cons'.2 ⟨?_, ih (current + step)⟩
      intro b hb
      cases fuel with
      | zero => simp [genStartsFuel] at hb
      | succ fuel2 =>
        rw [genStartsFuel] at hb
        by_cases h2 : current + step > lastIdx
        · rw [if_pos h2] at hb
          simp at hb
        · rw [if_neg h2] at hb
          simp at hb
          exact hb.symm

/-- Every start the generation loop produces is at most the last index
and lies on the arithmetic progression from the first index. -/
theorem genStartsFuel_mem (fuel : Nat) (lastIdx current : Int) (step : Nat) :
    ∀ x ∈ genStartsFuel fuel lastIdx current step,
      x ≤ lastIdx ∧ ∃ j : Nat, x = current + (step : Int) * j := by
  induction fuel generalizing current with
  | zero => intro x hx; simp [genStartsFuel] at hx
  | succ fuel ih =>
    intro x hx
    rw [genStartsFuel] at hx
    by_cases h : current > lastIdx
    · rw [if_pos h] at hx
      simp at hx
    · rw [if_neg h] at hx
      rcases List.mem_cons.1 hx with rfl | hx2
      · exact ⟨by omega, 0, by simp⟩
      · obtain ⟨hle, j, hj⟩ := ih (current + step) x hx2
        refine ⟨hle, j + 1, ?_⟩
        rw [hj]
        push_cast
        ring

/-- GetFirstCompleteQuarter returns one of the five candidate quarter
boundaries. -/
theorem getFirstCompleteQuarter_eq (s : CTime) :
    GetFirstCompleteQuarter s = ⟨s.y, 1, 1, 0⟩ ∨
    GetFirstCompleteQuarter s = ⟨s.y, 4, 1, 0⟩ ∨
    GetFirstCompleteQuarter s = ⟨s.y, 7, 1, 0⟩ ∨
    GetFirstCompleteQuarter s = ⟨s.y, 10, 1, 0⟩ ∨
    GetFirstCompleteQuarter s = ⟨s.y + 1, 1, 1, 0⟩ := by
  unfold GetFirstCompleteQuarter
  cases h1 : CTime.after ⟨s.y, 1, 1, 0⟩ s with
  | true => simp [List.find?, h1]
  | false =>
    cases h2 : CTime.after ⟨s.y, 4, 1, 0⟩ s with
    | true => simp [List.find?, h1, h2]
    | false =>
      cases h3 : CTime.after ⟨s.y, 7, 1, 0⟩ s with
      | true => simp [List.find?, h1, h2, h3]
      | false =>
        cases h4 : CTime.after ⟨s.y, 10, 1, 0⟩ s with
        | true => simp [List.find?, h1, h2, h3, h4]
        | false => simp [List.find?, h1, h2, h3, h4]

/-- GetFirstCompleteQuarter always yields a midnight quarter boundary:
day 1, time 0, month index divisible by 3. -/
theorem getFirstCompleteQuarter_shape (s : CTime) :
    (GetFirstCompleteQuarter s).d = 1 ∧ (GetFirstCompleteQuarter s).tod = 0 ∧
      (monthIdx (GetFirstCompleteQuarter s)) % 3 = 0 := by
  rcases getFirstCompleteQuarter_eq s with h | h | h | h | h <;> rw [h] <;>
    refine ⟨rfl, rfl, ?_⟩ <;> simp [monthIdx] <;> omega

/-- Calendar shape of the mapped historical period list, for any step
count and any first/last month index (`hquarter` supplies the quarterly
alignment: step 3 from a quarter-aligned first index). -/
theorem genPeriods_props (frequency : BillingFrequency) (step : Nat)
    (hstep : 0 < step) (lastIdx firstIdx : Int)
    (hquarter : frequency = Quarterly → step = 3 ∧ firstIdx % 3 = 0) :
    (∀ p ∈ (genStarts lastIdx firstIdx step).map (mkHistPeriod frequency step),
      p.Start.d = 1 ∧ p.Start.tod = 0 ∧ 1 ≤ p.Start.m ∧ p.Start.m ≤ 12 ∧
        (frequency = Quarterly →
          p.Start.m = 1 ∨ p.Start.m = 4 ∨ p.Start.m = 7 ∨ p.Start.m = 10)) ∧
    (∀ p ∈ (genStarts lastIdx firstIdx step).map (mkHistPeriod frequency step),
      p.End = idxToStart (monthIdx p.Start + step) ∧
        p.End.d = 1 ∧ p.End.tod = 0) ∧
    (∀ (i : Nat)
      (hi : i + 1 <
        ((genStarts lastIdx firstIdx step).map (mkHistPeriod frequency step)).length),
      (((genStarts lastIdx firstIdx step).map
          (mkHistPeriod frequency step)).get ⟨i, by omega⟩).End
          = (((genStarts lastIdx firstIdx step).map
              (mkHistPeriod frequency step)).get ⟨i + 1, hi⟩).Start ∧
      monthIdx (((genStarts lastIdx firstIdx step).map
          (mkHistPeriod frequency step)).get ⟨i, by omega⟩).Start
        < monthIdx (((genStarts lastIdx firstIdx step).map
            (mkHistPeriod frequency step)).get ⟨i + 1, hi⟩).Start) := by
  refine ⟨?_, ?_, ?_⟩
  · intro p hp
    rcases List.mem_map.1 hp with ⟨x, hx, rfl⟩
    obtain ⟨hxle, j, hj⟩ := genStartsFuel_mem _ _ _ _ x hx
    refine ⟨rfl, rfl, ?_, ?_, ?_⟩
    · show 1 ≤ x % 12 + 1
      omega
    · show x % 12 + 1 ≤ 12
      omega
    · intro hq
      obtain ⟨hstep3, hmod⟩ := hquarter hq
      subst hstep3
      show x % 12 + 1 = 1 ∨ x % 12 + 1 = 4 ∨ x % 12 + 1 = 7 ∨ x % 12 + 1 = 10
      omega
  · intro p hp
    rcases List.mem_map.1 hp with ⟨x, hx, rfl⟩
    refine ⟨?_, rfl, rfl⟩
    show idxToStart (x + step) = idxToStart (monthIdx (idxToStart x) + step)
    rw [monthIdx_idxToStart]
  · intro i hi
    have hch := genStartsFuel_chain ((lastIdx + 1 - firstIdx).toNat) lastIdx firstIdx step
    rw [List.chain'_iff_get] at hch
    have hi' : i < (genStarts lastIdx firstIdx step).length - 1 := by
      rw [List.length_map] at hi
      omega
    have hrel := hch i hi'
    have hg1 : (((genStarts lastIdx firstIdx step).map
        (mkHistPeriod frequency step)).get ⟨i, by omega⟩)
        = mkHistPeriod frequency step
            ((genStarts lastIdx firstIdx step).get ⟨i, by
              rw [List.length_map] at hi; omega⟩) := by
      simp [List.get_eq_getElem]
    have hg2 : (((genStarts lastIdx firstIdx step).map
        (mkHistPeriod frequency step)).get ⟨i + 1, hi⟩)
        = mkHistPeriod frequency step
            ((genStarts lastIdx firstIdx step).get ⟨i + 1, by
              rw [List.length_map] at hi; omega⟩) := by
      simp [List.get_eq_getElem]
    constructor
    · rw [hg1, hg2]
      show idxToStart ((genStarts lastIdx firstIdx step).get ⟨i, _⟩ + step)
          = idxToStart ((genStarts lastIdx firstIdx step).get ⟨i + 1, _⟩)
      rw [show ((genStarts lastIdx firstIdx step).get ⟨i + 1, by
          rw [List.length_map] at hi; omega⟩)
          = (genStarts lastIdx firstIdx step).get ⟨i, by
              rw [List.length_map] at hi; omega⟩ + (step : Int) from hrel]
    · rw [hg1, hg2]
      show monthIdx (idxToStart ((genStarts lastIdx firstIdx step).get ⟨i, _⟩))
          < monthIdx (idxToStart ((genStarts lastIdx firstIdx step).get ⟨i + 1, _⟩))
      rw [monthIdx_idxToStart, monthIdx_idxToStart,
        show ((genStarts lastIdx firstIdx step).get ⟨i + 1, by
            rw [List.length_map] at hi; omega⟩)
            = (genStarts lastIdx firstIdx step).get ⟨i, by
                rw [List.length_map] at hi; omega⟩ + (step : Int) from hrel]
      omega

/-- Monthly specialisation of `genPeriods_props` (step 1). -/
theorem genPeriods_props_monthly (lastIdx firstIdx : Int) :
    (∀ p ∈ (genStarts lastIdx firstIdx 1).map (mkHistPeriod Monthly 1),
      p.Start.d = 1 ∧ p.Start.tod = 0 ∧ 1 ≤ p.Start.m ∧ p.Start.m ≤ 12 ∧
        (Monthly = Quarterly →
          p.Start.m = 1 ∨ p.Start.m = 4 ∨ p.Start.m = 7 ∨ p.Start.m = 10)) ∧
    (∀ p ∈ (genStarts lastIdx firstIdx 1).map (mkHistPeriod Monthly 1),
      p.End = idxToStart (monthIdx p.Start + 1) ∧ p.End.d = 1 ∧ p.End.tod = 0) ∧
    (∀ (i : Nat)
      (hi : i + 1 < ((genStarts lastIdx firstIdx 1).map (mkHistPeriod Monthly 1)).length),
      (((genStarts lastIdx firstIdx 1).map (mkHistPeriod Monthly 1)).get
          ⟨i, by omega⟩).End
          = (((genStarts lastIdx firstIdx 1).map (mkHistPeriod Monthly 1)).get
              ⟨i + 1, hi⟩).Start ∧
      monthIdx (((genStarts lastIdx firstIdx 1).map (mkHistPeriod Monthly 1)).get
          ⟨i, by omega⟩).Start
        < monthIdx (((genStarts lastIdx firstIdx 1).map (mkHistPeriod Monthly 1)).get
            ⟨i + 1, hi⟩).Start) := by
  obtain ⟨c1, c2, c3⟩ := genPeriods_props Monthly 1 (by norm_num) lastIdx firstIdx
    (fun hq => absurd hq (by decide))
  refine ⟨c1, ?_, c3⟩
  intro p hp
  have h := c2 p hp
  simpa using h

/-- Quarterly specialisation of `genPeriods_props` (step 3 from a
quarter-aligned first index). -/
theorem genPeriods_props_quarterly (lastIdx firstIdx : Int)
    (hmod : firstIdx % 3 = 0) :
    (∀ p ∈ (genStarts lastIdx firstIdx 3).map (mkHistPeriod Quarterly 3),
      p.Start.d = 1 ∧ p.Start.tod = 0 ∧ 1 ≤ p.Start.m ∧ p.Start.m ≤ 12 ∧
        (Quarterly = Quarterly →
          p.Start.m = 1 ∨ p.Start.m = 4 ∨ p.Start.m = 7 ∨ p.Start.m = 10)) ∧
    (∀ p ∈ (genStarts lastIdx firstIdx 3).map (mkHistPeriod Quarterly 3),
      p.End = idxToStart (monthIdx p.Start + 3) ∧ p.End.d = 1 ∧ p.End.tod = 0) ∧
    (∀ (i : Nat)
      (hi : i + 1 < ((genStarts lastIdx firstIdx 3).map (mkHistPeriod Quarterly 3)).length),
      (((genStarts lastIdx firstIdx 3).map (mkHistPeriod Quarterly 3)).get
          ⟨i, by omega⟩).End
          = (((genStarts lastIdx firstIdx 3).map (mkHistPeriod Quarterly 3)).get
              ⟨i + 1, hi⟩).Start ∧
      monthIdx (((genStarts lastIdx firstIdx 3).map (mkHistPeriod Quarterly 3)).get
          ⟨i, by omega⟩).Start
        < monthIdx (((genStarts lastIdx firstIdx 3).map (mkHistPeriod Quarterly 3)).get
            ⟨i + 1, hi⟩).Start) := by
  obtain ⟨c1, c2, c3⟩ := genPeriods_props Quarterly 3 (by norm_num) lastIdx firstIdx
    (fun _ => ⟨rfl, hmod⟩)
  refine ⟨c1, ?_, c3⟩
  intro p hp
  have h := c2 p hp
  simpa using h

/-- C8: every period of the generated historical sequence starts at
midnight on the 1st of a calendar month (Monthly) or calendar quarter
(Quarterly) in Europe/Copenhagen civil time, ends exactly 1 resp. 3
calendar months after its start (also a midnight 1st), and consecutive
periods are contiguous (each period's end is the next period's start)
and strictly increasing. -/
theorem generateAvailablePeriods_calendar (consumerStartDate : CTime)
    (frequency : BillingFrequency) (now : CTime) (P : List (Period CTime))
    (hf : frequency = Monthly ∨ frequency = Quarterly)
    (hgen : GenerateAvailablePeriods consumerStartDate frequency Historical now
        = Except.ok P) :
    (∀ p ∈ P, p.Start.d = 1 ∧ p.Start.tod = 0 ∧ 1 ≤ p.Start.m ∧ p.Start.m ≤ 12 ∧
      (frequency = Quarterly →
        p.Start.m = 1 ∨ p.Start.m = 4 ∨ p.Start.m = 7 ∨ p.Start.m = 10)) ∧
    (frequency = Monthly → ∀ p ∈ P,
      p.End = idxToStart (monthIdx p.Start + 1) ∧ p.End.d = 1 ∧ p.End.tod = 0) ∧
    (frequency = Quarterly → ∀ p ∈ P,
      p.End = idxToStart (monthIdx p.Start + 3) ∧ p.End.d = 1 ∧ p.End.tod = 0) ∧
    (∀ (i : Nat) (hi : i + 1 < P.length),
      (P.get ⟨i, by omega⟩).End = (P.get ⟨i + 1, hi⟩).Start ∧
      monthIdx (P.get ⟨i, by omega⟩).Start
        < monthIdx (P.get ⟨i + 1, hi⟩).Start) := by
  rcases hf with hf | hf <;> subst hf
  · have e1 : ((Historical : CalculationType) = Historical) = True := by simp
    have e2 : ((Monthly : BillingFrequency) = Monthly) = True := by simp
    unfold GenerateAvailablePeriods GetLastCompletePeriod at hgen
    simp only [e1, e2, if_true] at hgen
    by_cases hm : now.m = 1
    · rw [if_pos hm] at hgen
      simp only [Except.ok.injEq] at hgen
      subst hgen
      exact ⟨(genPeriods_props_monthly _ _).1,
        fun _ => (genPeriods_props_monthly _ _).2.1,
        fun hq => absurd hq (by decide),
        (genPeriods_props_monthly _ _).2.2⟩
    · rw [if_neg hm] at hgen
      simp only [Except.ok.injEq] at hgen
      subst hgen
      exact ⟨(genPeriods_props_monthly _ _).1,
        fun _ => (genPeriods_props_monthly _ _).2.1,
        fun hq => absurd hq (by decide),
        (genPeriods_props_monthly _ _).2.2⟩
  · have e1 : ((Historical : CalculationType) = Historical) = True := by simp
    have e2 : ((Quarterly : BillingFrequency) = Monthly) = False := by
      simp [Quarterly, Monthly]
    have e3 : ((Quarterly : BillingFrequency) = Quarterly) = True := by simp
    unfold GenerateAvailablePeriods GetLastCompletePeriod at hgen
    simp only [e1, e2, e3, if_true, if_false] at hgen
    have hmod := (getFirstCompleteQuarter_shape consumerStartDate).2.2
    by_cases h10 : now.m ≥ 10
    · rw [if_pos h10] at hgen
      simp only [Except.ok.injEq] at hgen
      subst hgen
      exact ⟨(genPeriods_props_quarterly _ _ hmod).1,
        fun hq => absurd hq (by decide),
        fun _ => (genPeriods_props_quarterly _ _ hmod).2.1,
        (genPeriods_props_quarterly _ _ hmod).2.2⟩
    · rw [if_neg h10] at hgen
      by_cases h7 : now.m ≥ 7
      · rw [if_pos h7] at hgen
        simp only [Except.ok.injEq] at hgen
        subst hgen
        exact ⟨(genPeriods_props_quarterly _ _ hmod).1,
          fun hq => absurd hq (by decide),
          fun _ => (genPeriods_props_quarterly _ _ hmod).2.1,
          (genPeriods_props_quarterly _ _ hmod).2.2⟩
      · rw [if_neg h7] at hgen
        by_cases h4 : now.m ≥ 4
        · rw [if_pos h4] at hgen
          simp only [Except.ok.injEq] at hgen
          subst hgen
          exact ⟨(genPeriods_props_quarterly _ _ hmod).1,
            fun hq => absurd hq (by decide),
            fun _ => (genPeriods_props_quarterly _ _ hmod).2.1,
            (genPeriods_props_quarterly _ _ hmod).2.2⟩
        · rw [if_neg h4] at hgen
          simp only [Except.ok.injEq] at hgen
          subst hgen
          exact ⟨(genPeriods_props_quarterly _ _ hmod).1,
            fun hq => absurd hq (by decide),
            fun _ => (genPeriods_props_quarterly _ _ hmod).2.1,
            (genPeriods_props_quarterly _ _ hmod).2.2⟩

/-- C8 witness: the calendar shape of the generated historical monthly
periods for consumer start 2023-05-15 and now 2023-08-10 (June and July
2023). -/
theorem generateAvailablePeriods_calendar_witness :
    ∃ P, GenerateAvailablePeriods ⟨2023, 5, 15, 0⟩ Monthly Historical
        ⟨2023, 8, 10, 0⟩ = Except.ok P ∧
      ((∀ p ∈ P, p.Start.d = 1 ∧ p.Start.tod = 0 ∧ 1 ≤ p.Start.m ∧ p.Start.m ≤ 12 ∧
        (Monthly = Quarterly →
          p.Start.m = 1 ∨ p.Start.m = 4 ∨ p.Start.m = 7 ∨ p.Start.m = 10)) ∧
      (Monthly = Monthly → ∀ p ∈ P,
        p.End = idxToStart (monthIdx p.Start + 1) ∧ p.End.d = 1 ∧ p.End.tod = 0) ∧
      (Monthly = Quarterly → ∀ p ∈ P,
        p.End = idxToStart (monthIdx p.Start + 3) ∧ p.End.d = 1 ∧ p.End.tod = 0) ∧
      (∀ (i : Nat) (hi : i + 1 < P.length),
        (P.get ⟨i, by omega⟩).End = (P.get ⟨i + 1, hi⟩).Start ∧
        monthIdx (P.get ⟨i, by omega⟩).Start
          < monthIdx (P.get ⟨i + 1, hi⟩).Start)) := by
  refine ⟨_, rfl, ?_⟩
  exact generateAvailablePeriods_calendar ⟨2023, 5, 15, 0⟩ Monthly ⟨2023, 8, 10, 0⟩ _
    (Or.inl rfl) rfl

end ElInvoice
